import Mathlib

/-!
Verification of the Geo-Narrator AI client (src/App.tsx).

The application is a single-page React client.  Its logic is embedded here as
pure functions: React state updates become explicit state passing on an
`AppState` record, and the outcomes of the two external HTTP calls (the
reverse geocoder and the generative-AI endpoint) are inputs drawn from small
inductive types describing every outcome that the control flow of the source
distinguishes.  JavaScript string primitives used by the source
(`String.prototype.replace` with a global literal pattern, `trim`, `split`,
`includes`, `startsWith`, `endsWith`, `slice`) are modelled on `List Char`
by structurally recursive functions so that every definition evaluates.
-/

namespace GeoNarrator

/-! ## JavaScript string primitives -/

/-- Whitespace test used by JavaScript `String.prototype.trim`
(the ASCII whitespace characters; the source only ever trims text
produced by the AI endpoint). -/
def isWs (c : Char) : Bool :=
  c = ' ' || c = '\n' || c = '\t' || c = '\r' || c = '\x0b' || c = '\x0c'

/-- JavaScript `trim`: drop whitespace from both ends. -/
def trimChars (s : List Char) : List Char :=
  ((s.dropWhile isWs).reverse.dropWhile isWs).reverse

/-- Worker for `removeAll`.  `skip` counts characters of an already matched
occurrence that remain to be deleted; at `skip = 0` the scanner looks for the
next occurrence of the pattern `p`.  This is the left-to-right,
non-overlapping, no-rescan semantics of `s.replace(/p/g, "")`. -/
def removeAllGo (p : List Char) (skip : Nat) (s : List Char) : List Char :=
  match s with
  | [] => []
  | c :: rest =>
    match skip with
    | k + 1 => removeAllGo p k rest
    | 0 =>
      if p.isPrefixOf (c :: rest) then removeAllGo p (p.length - 1) rest
      else c :: removeAllGo p 0 rest

/-- JavaScript `s.replace(/p/g, "")` for a literal pattern `p`. -/
def removeAll (p s : List Char) : List Char :=
  removeAllGo p 0 s

/-- Worker for `splitComma`. -/
def splitCommaGo (acc : List Char) (s : List Char) : List (List Char) :=
  match s with
  | [] => [acc.reverse]
  | c :: rest =>
    if c = ',' then acc.reverse :: splitCommaGo [] rest
    else splitCommaGo (c :: acc) rest

/-- JavaScript `s.split(",")`. -/
def splitComma (s : List Char) : List (List Char) :=
  splitCommaGo [] s

/-- Worker for `containsStr`: does `needle` occur in the scanned list? -/
def containsGo (needle : List Char) : List Char → Bool
  | [] => needle.isEmpty
  | c :: rest => needle.isPrefixOf (c :: rest) || containsGo needle rest

/-- JavaScript `hay.includes(needle)` as used by the source via
`error.message?.includes(...)`. -/
def containsStr (needle hay : String) : Bool :=
  containsGo needle.data hay.data

/-! ## Data model (the `AIResponse` interface, App.tsx lines 29-60) -/

structure TimelineEntry where
  year : String
  event : String

structure GeographicalContext where
  state : String
  mainRiver : String
  climate : String
  elevation : String

structure TraditionalArts where
  dance : String
  music : String
  craft : String

structure CulturalPractices where
  regionalFestivals : List String
  traditionalArts : TraditionalArts
  regionalCuisine : List String
  localHandicrafts : List String

/-- The AI response payload.  Optional fields of the TypeScript interface
become `Option` fields. -/
structure AIResponse where
  title : String
  location : String
  description : String
  history : String
  architecture : String
  vibe : String
  food : String
  funFact : String
  rating : Int
  isLocation : Bool
  fallbackMessage : Option String := none
  importantTimeline : Option (List TimelineEntry) := none
  geographicalContext : Option GeographicalContext := none
  culturalPractices : Option CulturalPractices := none
  trivia : Option (List String) := none
  nearbyPlaces : Option (List String) := none

/-! ## Access gate (App.tsx lines 63-86) -/

/-- Password source, `import.meta.env.VITE_APP_PASSWORD || "AmbujAI"` (App.tsx line 64):
an unset variable is `none`, and the empty string is falsy in JavaScript,
so both fall back to the hardcoded default. -/
def appPassword (env : Option String) : String :=
  match env with
  | none => "AmbujAI"
  | some v => if v = "" then "AmbujAI" else v

/-- Observable effects of one submission of the login form. -/
structure LoginEffects where
  loginCalled : Bool
  errorFlag : Bool
  loadingFlag : Bool

/-- Model of `LoginScreen.handleSubmit` (App.tsx lines 75-86): sets loading, then on a
match calls `onLogin` (leaving `error` and `loading` as they are), otherwise
sets the error flag and clears loading.  `errPrev` is the error state before
submission. -/
def handleSubmit (pass pw : String) (errPrev : Bool) : LoginEffects :=
  if pass = pw then { loginCalled := true, errorFlag := errPrev, loadingFlag := true }
  else { loginCalled := false, errorFlag := true, loadingFlag := false }

/-- Flag `isAuthenticated` of the App component after a submission: `onLogin`
is the only writer and sets it to `true` (App.tsx line 463). -/
def nextAuthenticated (auth : Bool) (eff : LoginEffects) : Bool :=
  auth || eff.loginCalled

/-! ## App state (App.tsx lines 453-460) -/

structure LatLng where
  lat : Float
  lng : Float

/-- The `useState` cells of the `App` component. -/
structure AppState where
  isAuthenticated : Bool
  position : Option LatLng
  address : String
  loading : Bool
  aiData : Option AIResponse
  previewImage : Option String

/-- Initial state of `App` (the `useState` initialisers). -/
def initialState : AppState :=
  { isAuthenticated := false
    position := none
    address := "Select location..."
    loading := false
    aiData := none
    previewImage := none }

/-- The map marker is rendered exactly when a position is stored
(App.tsx line 797: `position && Marker`). -/
def markerShown (st : AppState) : Bool := st.position.isSome

/-- The preview thumbnail is rendered exactly when a preview image is stored
(App.tsx lines 737-754). -/
def previewShown (st : AppState) : Bool := st.previewImage.isSome

/-- The Target panel displays the `address` state (App.tsx line 707). -/
def targetLabel (st : AppState) : String := st.address

/-! ## Reverse geocoder (App.tsx lines 466-473) -/

/-- Outcome of the axios GET to the reverse-geocoding endpoint: either a
response body whose display-name field may be absent, or a thrown network
error. -/
inductive GeoOutcome where
  | ok (displayName : Option String)
  | netError

/-- Model of `fetchAddress`: returns `res.data.display_name || "Unknown Location"`,
and `"Selected Location"` when the request throws.  An empty display name is
falsy in JavaScript and also yields `"Unknown Location"`. -/
def fetchAddress : GeoOutcome → String
  | .netError => "Selected Location"
  | .ok dn =>
    match dn with
    | none => "Unknown Location"
    | some s => if s = "" then "Unknown Location" else s

/-! ## AI narrator client (App.tsx lines 475-651) -/

/-- Parts of the JSON body of the endpoint that the source reads:
`apiData.error?.message` and
`apiData.candidates?.[0]?.content?.parts?.[0]?.text`. -/
structure ApiBody where
  errorMessage : Option String
  candidateText : Option String

/-- Outcome of the `fetch` exchange: either the transport throws (network
failure, unreadable body), or a response arrives with a status, a status
text and a JSON body. -/
inductive AIExchange where
  | netThrow (msg : String)
  | reply (status : Nat) (statusText : String) (body : ApiBody)

/-- Status test `response.ok` per the fetch specification: status in [200, 300). -/
def statusOk (status : Nat) : Bool :=
  200 ≤ status && status < 300

def backtick : Char := Char.ofNat 96

/-- Characters of the pattern "```json" stripped by `generateAIContent`
(App.tsx line 634). -/
def fenceJson : List Char := [backtick, backtick, backtick, 'j', 's', 'o', 'n']

/-- Characters of the pattern "```" (App.tsx line 634). -/
def fence : List Char := [backtick, backtick, backtick]

/-- The cleaning step of `generateAIContent` (App.tsx line 634):
`text.replace(/```json/g, "").replace(/```/g, "").trim()`. -/
def cleanText (s : String) : String :=
  ⟨trimChars (removeAll fence (removeAll fenceJson s.data))⟩

/-- Message thrown for a 503 response (App.tsx line 621). -/
def overloadedMessage : String := "AI service is busy. Please wait a moment and try again."

/-- Message thrown for an empty or absent candidate text (App.tsx line 631). -/
def emptyResponseMessage : String := "Empty response from AI. Check console for details."

/-- Message of the error thrown for a non-ok, non-503 response
(App.tsx line 623): `apiData.error?.message || response.statusText`. -/
def httpErrorMessage (status : Nat) (statusText : String) (body : ApiBody) : String :=
  if status = 503 then overloadedMessage
  else
    match body.errorMessage with
    | some m => if m = "" then statusText else m
    | none => statusText

def busyAlertText : String :=
  "⏳ AI service is currently busy. Please wait 30 seconds and try again."

def keyAlertText : String :=
  "🔑 Invalid API key. Please check your .env file."

/-- Alert classification of the catch block (App.tsx lines 641-647). -/
def classifyAlert (msg : String) : String :=
  if containsStr "overloaded" msg || containsStr "busy" msg then busyAlertText
  else if containsStr "API key" msg then keyAlertText
  else "❌ Error: " ++ (if msg = "" then "Please try again." else msg)

/-- Alerts raised and error logging performed by one `generateAIContent`
call.  The function never lets an exception escape (the whole body is inside
try/catch/finally), which the model expresses by being total. -/
structure GenEffects where
  alerts : List String
  logged : Bool

/-- The state update at the top of `generateAIContent` (App.tsx lines
476-477): `setLoading(true); setAiData(null)`. -/
def generateStart (st : AppState) : AppState :=
  { st with loading := true, aiData := none }

/-- Model of `generateAIContent` (App.tsx lines 475-651).  `parse` stands for the
JavaScript `JSON.parse` applied to the cleaned text, yielding either a typed
payload or a thrown message.  Every path ends in the finally block clearing
the loading flag; every catch path raises exactly one alert. -/
def generateAIContent (parse : String → Except String AIResponse)
    (ex : AIExchange) (st : AppState) : AppState × GenEffects :=
  let st0 := generateStart st
  match ex with
  | .netThrow msg =>
    ({ st0 with loading := false }, { alerts := [classifyAlert msg], logged := true })
  | .reply status statusText body =>
    if statusOk status = false then
      ({ st0 with loading := false },
       { alerts := [classifyAlert (httpErrorMessage status statusText body)], logged := true })
    else
      match body.candidateText with
      | none =>
        ({ st0 with loading := false },
         { alerts := [classifyAlert emptyResponseMessage], logged := true })
      | some t =>
        if t = "" then
          ({ st0 with loading := false },
           { alerts := [classifyAlert emptyResponseMessage], logged := true })
        else
          match parse (cleanText t) with
          | .error pmsg =>
            ({ st0 with loading := false },
             { alerts := [classifyAlert pmsg], logged := true })
          | .ok d =>
            ({ st0 with aiData := some d, loading := false },
             { alerts := [], logged := false })

/-- The failure conditions listed by the specification: non-success HTTP
status, empty or absent candidate text, cleaned text not valid JSON.  A
transport-level throw is deliberately not in this list. -/
def listedFailureB (parse : String → Except String AIResponse) : AIExchange → Bool
  | .netThrow _ => false
  | .reply status _ body =>
    if statusOk status = false then true
    else
      match body.candidateText with
      | none => true
      | some t =>
        if t = "" then true
        else
          match parse (cleanText t) with
          | .error _ => true
          | .ok _ => false

/-- Every condition under which the catch block of `generateAIContent` runs:
the listed conditions together with a transport-level throw. -/
def anyFailureB (parse : String → Except String AIResponse) : AIExchange → Bool
  | .netThrow _ => true
  | .reply status statusText body => listedFailureB parse (.reply status statusText body)

/-! ## User actions (App.tsx lines 653-676) -/

/-- Model of `handleMapClick` (App.tsx lines 653-659): store the clicked position,
clear the preview image, resolve the address, then run the AI call. -/
def handleMapClick (st : AppState) (latlng : LatLng) (geo : GeoOutcome)
    (parse : String → Except String AIResponse) (aiEx : AIExchange) : AppState :=
  let st1 := { st with position := some latlng, previewImage := none }
  let st2 := { st1 with address := fetchAddress geo }
  (generateAIContent parse aiEx st2).1

/-- Model of `handleImageUpload` (App.tsx lines 661-676): `reader.result` is split on
a comma; a missing or empty second piece is falsy and nothing happens;
otherwise the data URL becomes the preview, the address becomes a progress
note, the position is cleared, and the AI call runs with the base64 payload. -/
def handleImageUpload (st : AppState) (readerResult : String)
    (parse : String → Except String AIResponse) (aiEx : AIExchange) : AppState :=
  match (splitComma readerResult.data)[1]? with
  | none => st
  | some b =>
    if b = [] then st
    else
      let st1 := { st with previewImage := some readerResult,
                           address := "Analyzing image...", position := none }
      (generateAIContent parse aiEx st1).1

/-! ## Result card (App.tsx lines 233-450) -/

/-- The four mutually exclusive renderings of `ResultCard`. -/
inductive CardView where
  | loadingCard
  | emptyCard
  | failureCard (message : String)
  | narrativeCard (data : AIResponse)

/-- Default failure-panel message (App.tsx line 262). -/
def defaultFallback : String :=
  "This doesn\x27t appear to be a recognizable location. Please try again."

/-- Model of `ResultCard` (App.tsx lines 233-450): loading beats everything, then the
empty state, then the failure panel with
`data.fallbackMessage || default` (an empty string is falsy), then the
narrative panels. -/
def resultCard (data : Option AIResponse) (loading : Bool) : CardView :=
  if loading then .loadingCard
  else
    match data with
    | none => .emptyCard
    | some d =>
      if d.isLocation = false then
        .failureCard
          (match d.fallbackMessage with
           | some m => if m = "" then defaultFallback else m
           | none => defaultFallback)
      else .narrativeCard d

/-! ## Helper lemmas -/

/-- Function `generateAIContent` only writes the `loading` and `aiData` cells; the
address, position, preview image and authentication flag pass through. -/
lemma generateAIContent_preserves (parse : String → Except String AIResponse)
    (ex : AIExchange) (st : AppState) :
    ((generateAIContent parse ex st).1.address = st.address) ∧
    ((generateAIContent parse ex st).1.position = st.position) ∧
    ((generateAIContent parse ex st).1.previewImage = st.previewImage) ∧
    ((generateAIContent parse ex st).1.isAuthenticated = st.isAuthenticated) := by
  cases ex with
  | netThrow msg => simp [generateAIContent, generateStart]
  | reply status statusText body =>
    by_cases h : statusOk status = false
    · simp [generateAIContent, generateStart, h]
    · cases hb : body.candidateText with
      | none => simp [generateAIContent, generateStart, h, hb]
      | some t =>
        by_cases ht : t = ""
        · simp [generateAIContent, generateStart, h, hb, ht]
        · cases hp : parse (cleanText t) with
          | error pmsg => simp [generateAIContent, generateStart, h, hb, ht, hp]
          | ok d => simp [generateAIContent, generateStart, h, hb, ht, hp]

/-! ## Claims about the access gate -/

/-- Claim C2: submitting the configured password invokes the unlock callback;
any other string leaves the callback uninvoked, sets the error flag, and
leaves the authenticated state false. -/
theorem login_gate_behavior (s pw : String) (errPrev : Bool) :
    ((handleSubmit s pw errPrev).loginCalled = (s == pw)) ∧
    ((handleSubmit s pw errPrev).errorFlag = (if s == pw then errPrev else true)) ∧
    (nextAuthenticated false (handleSubmit s pw errPrev) = (s == pw)) := by
  by_cases h : s = pw
  · simp [handleSubmit, nextAuthenticated, h]
  · simp [handleSubmit, nextAuthenticated, h]

/-- Claim C8: with the password environment variable unset or empty, the gate
compares against the hardcoded default "AmbujAI", so exactly that string
unlocks. -/
theorem default_password_gate (env : Option String)
    (henv : env = none ∨ env = some "") (s : String) (errPrev : Bool) :
    appPassword env = "AmbujAI" ∧
    ((handleSubmit s (appPassword env) errPrev).loginCalled = (s == "AmbujAI")) := by
  have hpw : appPassword env = "AmbujAI" := by
    rcases henv with h | h <;> subst h <;> simp [appPassword]
  refine ⟨hpw, ?_⟩
  rw [hpw]
  by_cases h : s = "AmbujAI"
  · simp [handleSubmit, h]
  · simp [handleSubmit, h]

/-- Witness for C8 at a concrete environment and input. -/
theorem default_password_gate_witness :
    appPassword none = "AmbujAI" ∧
    ((handleSubmit "AmbujAI" (appPassword none) false).loginCalled =
      ("AmbujAI" == "AmbujAI")) :=
  default_password_gate none (Or.inl rfl) "AmbujAI" false

/-! ## Claims about the geocoder -/

/-- Claim C5: a reverse-geocode request that fails with a network error makes
`fetchAddress` return the fixed fallback string, which `handleMapClick`
stores as the displayed Target label; no exception escapes (the model is a
total function). -/
theorem geocode_failure_fallback_label (st : AppState) (latlng : LatLng)
    (parse : String → Except String AIResponse) (aiEx : AIExchange) :
    fetchAddress .netError = "Selected Location" ∧
    targetLabel (handleMapClick st latlng .netError parse aiEx) = "Selected Location" := by
  constructor
  · rfl
  · show (generateAIContent parse aiEx _).1.address = _
    rw [(generateAIContent_preserves parse aiEx _).1]
    rfl

/-- Claim C6: a successful reverse-geocode response with a non-empty display
name makes `fetchAddress` return exactly that name, and `handleMapClick`
stores it as the Target label. -/
theorem geocode_display_name_label (s : String) (h : s ≠ "") (st : AppState)
    (latlng : LatLng) (parse : String → Except String AIResponse) (aiEx : AIExchange) :
    fetchAddress (.ok (some s)) = s ∧
    targetLabel (handleMapClick st latlng (.ok (some s)) parse aiEx) = s := by
  have hf : fetchAddress (.ok (some s)) = s := by simp [fetchAddress, h]
  refine ⟨hf, ?_⟩
  show (generateAIContent parse aiEx _).1.address = _
  rw [(generateAIContent_preserves parse aiEx _).1]
  simpa using hf

/-- A parse model used by concrete witnesses: every string is rejected the
way JSON.parse rejects non-JSON text. -/
def parseNone : String → Except String AIResponse :=
  fun _ => .error "SyntaxError: Unexpected token"

/-- Witness for C6 at a concrete display name. -/
theorem geocode_display_name_label_witness :
    fetchAddress (.ok (some "New Delhi, Delhi, India")) = "New Delhi, Delhi, India" ∧
    targetLabel (handleMapClick initialState ⟨28.6139, 77.209⟩
      (.ok (some "New Delhi, Delhi, India")) parseNone (.netThrow "Failed to fetch")) =
      "New Delhi, Delhi, India" :=
  geocode_display_name_label "New Delhi, Delhi, India" (by decide) initialState
    ⟨28.6139, 77.209⟩ parseNone (.netThrow "Failed to fetch")

/-! ## Claim about the image upload handler -/

/-- Claim C7: an upload whose reader result yields a (non-empty) base64
payload stores the data URL as the preview image and clears the position, so
the thumbnail renders and the map marker is suppressed. -/
theorem image_upload_preview_position (st : AppState) (rr : String)
    (b : List Char) (parse : String → Except String AIResponse) (aiEx : AIExchange)
    (h1 : (splitComma rr.data)[1]? = some b) (h2 : b ≠ []) :
    (handleImageUpload st rr parse aiEx).previewImage = some rr ∧
    (handleImageUpload st rr parse aiEx).position = none ∧
    previewShown (handleImageUpload st rr parse aiEx) = true ∧
    markerShown (handleImageUpload st rr parse aiEx) = false := by
  have hpre := generateAIContent_preserves parse aiEx
    { st with previewImage := some rr, address := "Analyzing image...", position := none }
  unfold handleImageUpload
  simp only [h1, if_neg h2]
  refine ⟨?_, ?_, ?_, ?_⟩
  · rw [hpre.2.2.1]
  · rw [hpre.2.1]
  · unfold previewShown; rw [hpre.2.2.1]; rfl
  · unfold markerShown; rw [hpre.2.1]; rfl

/-- Witness for C7 at a concrete data URL. -/
theorem image_upload_preview_position_witness :
    (handleImageUpload initialState "data:image/jpeg;base64,QUJD" parseNone
      (.netThrow "Failed to fetch")).previewImage = some "data:image/jpeg;base64,QUJD" ∧
    (handleImageUpload initialState "data:image/jpeg;base64,QUJD" parseNone
      (.netThrow "Failed to fetch")).position = none ∧
    previewShown (handleImageUpload initialState "data:image/jpeg;base64,QUJD" parseNone
      (.netThrow "Failed to fetch")) = true ∧
    markerShown (handleImageUpload initialState "data:image/jpeg;base64,QUJD" parseNone
      (.netThrow "Failed to fetch")) = false :=
  image_upload_preview_position initialState "data:image/jpeg;base64,QUJD"
    "QUJD".data parseNone (.netThrow "Failed to fetch") (by decide) (by decide)

/-! ## Claims about the result card -/

/-- A stored response that is not a location and carries an empty (but
present) fallback message. -/
def respEmptyFallback : AIResponse :=
  { title := "", location := "", description := "", history := "", architecture := ""
    vibe := "", food := "", funFact := "", rating := 0, isLocation := false
    fallbackMessage := some "" }

/-- A stored response that is not a location and carries a non-empty
fallback message. -/
def respCustomFallback : AIResponse :=
  { title := "", location := "", description := "", history := "", architecture := ""
    vibe := "", food := "", funFact := "", rating := 0, isLocation := false
    fallbackMessage := some "Try a nearby city instead." }

/-- Counterexample to claim C4 as stated: with `fallbackMessage` present but
equal to the empty string, the failure panel shows the default message, not
the fallback message of the object (the source uses the falsy-coalescing
`data.fallbackMessage || default`). -/
theorem failure_panel_empty_fallback_cex :
    respEmptyFallback.isLocation = false ∧
    respEmptyFallback.fallbackMessage = some "" ∧
    resultCard (some respEmptyFallback) false = .failureCard defaultFallback ∧
    defaultFallback ≠ "" :=
  ⟨rfl, rfl, rfl, by decide⟩

/-- Claim C4 (amended): for a non-loading card whose stored response has
`isLocation = false`, the failure panel shows the fallback message when it
is present and non-empty, and the default message when it is absent or
empty; no narrative panel is rendered. -/
theorem failure_panel_message (d : AIResponse) (h : d.isLocation = false) :
    (∀ m, d.fallbackMessage = some m → m ≠ "" →
      resultCard (some d) false = .failureCard m) ∧
    (d.fallbackMessage = none →
      resultCard (some d) false = .failureCard defaultFallback) ∧
    (d.fallbackMessage = some "" →
      resultCard (some d) false = .failureCard defaultFallback) ∧
    (∀ d2, resultCard (some d) false ≠ .narrativeCard d2) := by
  refine ⟨?_, ?_, ?_, ?_⟩
  · intro m hm hme
    simp [resultCard, h, hm, hme]
  · intro hm
    simp [resultCard, h, hm]
  · intro hm
    simp [resultCard, h, hm]
  · intro d2
    simp [resultCard, h]

/-- Witness for the amended C4 at a concrete response. -/
theorem failure_panel_message_witness :
    respCustomFallback.isLocation = false ∧
    resultCard (some respCustomFallback) false =
      .failureCard "Try a nearby city instead." :=
  ⟨rfl, (failure_panel_message respCustomFallback rfl).1
    "Try a nearby city instead." rfl (by decide)⟩

/-! ## Claims about the error handling of the AI call -/

/-- The classifier always produces one of the three alert classes: the
busy/overloaded message, the invalid-key message, or a generic message. -/
lemma classifyAlert_shape (msg : String) :
    classifyAlert msg = busyAlertText ∨ classifyAlert msg = keyAlertText ∨
    ∃ r, classifyAlert msg = "❌ Error: " ++ r := by
  by_cases h1 : (containsStr "overloaded" msg || containsStr "busy" msg) = true
  · left
    simp [classifyAlert, h1]
  · by_cases h2 : containsStr "API key" msg = true
    · right; left
      simp [classifyAlert, h1, h2]
    · right; right
      exact ⟨if msg = "" then "Please try again." else msg,
        by simp [classifyAlert, h1, h2]⟩

/-- Counterexample to claim C3 as stated: a transport-level failure (the
fetch promise rejects, e.g. while offline) also raises the blocking alert,
although none of the three listed conditions (non-success status, empty
text, invalid JSON) holds, so they are not the only alert conditions. -/
theorem ai_alert_outside_listed_conditions :
    (generateAIContent parseNone (.netThrow "Failed to fetch") initialState).2.alerts.length = 1 ∧
    listedFailureB parseNone (.netThrow "Failed to fetch") = false :=
  ⟨rfl, rfl⟩

/-- Claim C3 (amended): the alert fires exactly when the call fails — a
transport-level throw, a non-success status, empty/absent candidate text, or
a JSON parse failure — and then exactly one alert is raised, the error is
logged, and the message is one of the three classes (busy/overloaded,
invalid API key, generic).  The error never propagates: the model of
`generateAIContent` is a total function. -/
theorem ai_failure_alert_classified (parse : String → Except String AIResponse)
    (ex : AIExchange) (st : AppState) :
    ((generateAIContent parse ex st).2.alerts.length =
      if anyFailureB parse ex then 1 else 0) ∧
    ((generateAIContent parse ex st).2.logged = anyFailureB parse ex) ∧
    (anyFailureB parse ex = true →
      ∃ m, (generateAIContent parse ex st).2.alerts = [m] ∧
        (m = busyAlertText ∨ m = keyAlertText ∨ ∃ r, m = "❌ Error: " ++ r)) := by
  cases ex with
  | netThrow msg =>
    refine ⟨by simp [generateAIContent, anyFailureB], by simp [generateAIContent, anyFailureB], ?_⟩
    intro _
    exact ⟨classifyAlert msg, by simp [generateAIContent], classifyAlert_shape msg⟩
  | reply status statusText body =>
    by_cases h : statusOk status = false
    · refine ⟨by simp [generateAIContent, anyFailureB, listedFailureB, h],
        by simp [generateAIContent, anyFailureB, listedFailureB, h], ?_⟩
      intro _
      exact ⟨classifyAlert (httpErrorMessage status statusText body),
        by simp [generateAIContent, h], classifyAlert_shape _⟩
    · cases hb : body.candidateText with
      | none =>
        refine ⟨by simp [generateAIContent, anyFailureB, listedFailureB, h, hb],
          by simp [generateAIContent, anyFailureB, listedFailureB, h, hb], ?_⟩
        intro _
        exact ⟨classifyAlert emptyResponseMessage,
          by simp [generateAIContent, h, hb], classifyAlert_shape _⟩
      | some t =>
        by_cases ht : t = ""
        · refine ⟨by simp [generateAIContent, anyFailureB, listedFailureB, h, hb, ht],
            by simp [generateAIContent, anyFailureB, listedFailureB, h, hb, ht], ?_⟩
          intro _
          exact ⟨classifyAlert emptyResponseMessage,
            by simp [generateAIContent, h, hb, ht], classifyAlert_shape _⟩
        · cases hp : parse (cleanText t) with
          | error pmsg =>
            refine ⟨by simp [generateAIContent, anyFailureB, listedFailureB, h, hb, ht, hp],
              by simp [generateAIContent, anyFailureB, listedFailureB, h, hb, ht, hp], ?_⟩
            intro _
            exact ⟨classifyAlert pmsg,
              by simp [generateAIContent, h, hb, ht, hp], classifyAlert_shape _⟩
          | ok d =>
            have hfail : anyFailureB parse (.reply status statusText body) = false := by
              simp [anyFailureB, listedFailureB, h, hb, ht, hp]
            refine ⟨?_, ?_, ?_⟩
            · simp [generateAIContent, hfail, h, hb, ht, hp]
            · simp [generateAIContent, hfail, h, hb, ht, hp]
            · intro hcontra
              rw [hfail] at hcontra
              exact absurd hcontra (by simp)

/-- Witness for the amended C3 at a concrete failing exchange. -/
theorem ai_failure_alert_classified_witness :
    ∃ m, (generateAIContent parseNone (.netThrow "Failed to fetch") initialState).2.alerts = [m] ∧
      (m = busyAlertText ∨ m = keyAlertText ∨ ∃ r, m = "❌ Error: " ++ r) :=
  (ai_failure_alert_classified parseNone (.netThrow "Failed to fetch") initialState).2.2 rfl

/-- Claim C10: every call starts by clearing the stored result and raising
the loading flag; on every completion path the loading flag ends false; on
every failure path the stored result is still null. -/
theorem loading_lifecycle (parse : String → Except String AIResponse)
    (ex : AIExchange) (st : AppState) :
    ((generateStart st).aiData = none ∧ (generateStart st).loading = true) ∧
    ((generateAIContent parse ex st).1.loading = false) ∧
    (anyFailureB parse ex = true → (generateAIContent parse ex st).1.aiData = none) := by
  refine ⟨⟨rfl, rfl⟩, ?_, ?_⟩
  · cases ex with
    | netThrow msg => simp [generateAIContent]
    | reply status statusText body =>
      by_cases h : statusOk status = false
      · simp [generateAIContent, h]
      · cases hb : body.candidateText with
        | none => simp [generateAIContent, h, hb]
        | some t =>
          by_cases ht : t = ""
          · simp [generateAIContent, h, hb, ht]
          · cases hp : parse (cleanText t) with
            | error pmsg => simp [generateAIContent, h, hb, ht, hp]
            | ok d => simp [generateAIContent, h, hb, ht, hp]
  · intro hfail
    cases ex with
    | netThrow msg => simp [generateAIContent, generateStart]
    | reply status statusText body =>
      by_cases h : statusOk status = false
      · simp [generateAIContent, generateStart, h]
      · cases hb : body.candidateText with
        | none => simp [generateAIContent, generateStart, h, hb]
        | some t =>
          by_cases ht : t = ""
          · simp [generateAIContent, generateStart, h, hb, ht]
          · cases hp : parse (cleanText t) with
            | error pmsg => simp [generateAIContent, generateStart, h, hb, ht, hp]
            | ok d =>
              exfalso
              have : anyFailureB parse (.reply status statusText body) = false := by
                simp [anyFailureB, listedFailureB, h, hb, ht, hp]
              rw [this] at hfail
              exact absurd hfail (by simp)

/-- Witness for C10 at a concrete failing exchange. -/
theorem loading_lifecycle_witness :
    (generateAIContent parseNone (.netThrow "Failed to fetch") initialState).1.aiData = none :=
  (loading_lifecycle parseNone (.netThrow "Failed to fetch") initialState).2.2 rfl

/-! ## RichText (App.tsx lines 214-230)

`RichText` computes `content.split(/(\*\*.*?\*\*)/g)` and renders a part in
bold with its first and last two characters sliced off when it starts and
ends with a double star, and verbatim otherwise.  The splitting regex is
modelled directly: a match is a double star, a lazily minimal run of
dot-matching characters (the dot of a JavaScript regex matches neither
newlines nor the two Unicode line separators), and a closing double star;
because the delimiter is a capture group, matched fragments are kept in the
split result between the unmatched pieces. -/

/-- Characters matched by the regex dot. -/
def isDotChar (c : Char) : Bool :=
  !(c = '\n' || c = '\r' || c = Char.ofNat 0x2028 || c = Char.ofNat 0x2029)

/-- Lazy search for the closing double star: the distance consumed by the
minimal `.*?` run, or `none` when no closing appears on the same line. -/
def findClose : List Char → Option Nat
  | '*' :: '*' :: _ => some 0
  | c :: rest => if isDotChar c then (findClose rest).map (· + 1) else none
  | [] => none

/-- Attempt to match `\*\*.*?\*\*` at the head of the list, returning the
inner-run length of the lazily shortest match. -/
def matchBold : List Char → Option Nat
  | '*' :: '*' :: rest => findClose rest
  | _ => none

/-- Worker for `rtSplit`.  `acc` holds the reversed current unmatched piece.
The fuel argument only serves structural recursion; it starts at the input
length and one character is consumed per step, so the fuel-exhausted case is
never reached. -/
def rtSplitGo : Nat → List Char → List Char → List (List Char)
  | _, acc, [] => [acc.reverse]
  | 0, acc, s => [acc.reverse ++ s]
  | fuel + 1, acc, c :: rest =>
    match matchBold (c :: rest) with
    | some k =>
      acc.reverse :: List.take (k + 4) (c :: rest) ::
        rtSplitGo fuel [] (List.drop (k + 4) (c :: rest))
    | none => rtSplitGo fuel (c :: acc) rest

/-- Model of `content.split(/(\*\*.*?\*\*)/g)`: alternating unmatched pieces and
captured delimiters, scanning left to right. -/
def rtSplit (s : List Char) : List (List Char) :=
  rtSplitGo s.length [] s

def boldMarker : List Char := ['*', '*']

/-- The bold test of `RichText`:
`part.startsWith("**") && part.endsWith("**")`. -/
def rtIsBold (p : List Char) : Bool :=
  boldMarker.isPrefixOf p && boldMarker.isSuffixOf p

/-- JavaScript `part.slice(2, -2)`. -/
def sliceBold (p : List Char) : List Char :=
  List.drop 2 (List.take (p.length - 2) p)

/-- The text rendered for one part: sliced when bold, verbatim otherwise. -/
def rtRenderText (p : List Char) : List Char :=
  if rtIsBold p then sliceBold p else p

example : rtSplit "a**b**c".data = ["a".data, "**b**".data, "c".data] := by decide

example : rtSplit "**x**".data = ["".data, "**x**".data, "".data] := by decide

example : rtSplit "plain".data = ["plain".data] := by decide

/-- The split is a partition: its pieces concatenate back to the input, for
any fuel. -/
lemma rtSplitGo_join : ∀ (fuel : Nat) (acc s : List Char),
    (rtSplitGo fuel acc s).flatten = acc.reverse ++ s := by
  intro fuel
  induction fuel with
  | zero =>
    intro acc s
    cases s with
    | nil => simp [rtSplitGo]
    | cons c rest => simp [rtSplitGo]
  | succ fuel ih =>
    intro acc s
    cases s with
    | nil => simp [rtSplitGo]
    | cons c rest =>
      cases hm : matchBold (c :: rest) with
      | some k =>
        simp only [rtSplitGo, hm, List.flatten_cons]
        rw [ih [] (List.drop (k + 4) (c :: rest))]
        simp [List.take_append_drop]
      | none =>
        simp only [rtSplitGo, hm]
        rw [ih (c :: acc) rest]
        simp

/-- Claim C9: the `RichText` split partitions the content; a part is
rendered bold exactly when it starts and ends with the double-star marker
(every other part is rendered verbatim); and the concatenation of the
rendered texts is exactly the concatenation of the parts with the markers of
every bold part sliced off — by the partition, the original content with
those delimiters removed. -/
theorem richtext_split_render (content : List Char) :
    (rtSplit content).flatten = content ∧
    (∀ p : List Char, (rtIsBold p = true) ↔
      (boldMarker.isPrefixOf p = true ∧ boldMarker.isSuffixOf p = true)) ∧
    ((rtSplit content).map rtRenderText).flatten =
      ((rtSplit content).map (fun p =>
        if boldMarker.isPrefixOf p = true ∧ boldMarker.isSuffixOf p = true
        then sliceBold p else p)).flatten := by
  refine ⟨?_, ?_, ?_⟩
  · simpa [rtSplit] using rtSplitGo_join content.length [] content
  · intro p
    simp [rtIsBold, Bool.and_eq_true]
  · have hfun : ∀ p, rtRenderText p =
        (if boldMarker.isPrefixOf p = true ∧ boldMarker.isSuffixOf p = true
         then sliceBold p else p) := by
      intro p
      by_cases h1 : boldMarker.isPrefixOf p = true
      · by_cases h2 : boldMarker.isSuffixOf p = true
        · simp [rtRenderText, rtIsBold, h1, h2]
        · simp [rtRenderText, rtIsBold, h1, h2]
      · simp [rtRenderText, rtIsBold, h1]
    exact congrArg List.flatten (List.map_congr_left (fun p _ => hfun p))

/-! ## Code-fence stripping (claim C1)

`generateAIContent` cleans the candidate text with
`text.replace(/```json/g, "").replace(/```/g, "").trim()` before calling
`JSON.parse`.  The claim is that wrapping a text in code-fence markers does
not change the cleaned string.  The lemmas below analyse `removeAllGo`, the
scanner behind `removeAll`. -/

example : fenceJson = "```json".data := by decide

example : fence = "```".data := by decide

lemma removeAllGo_cons_pos (p : List Char) (c : Char) (rest : List Char)
    (h : p.isPrefixOf (c :: rest) = true) :
    removeAllGo p 0 (c :: rest) = removeAllGo p (p.length - 1) rest := by
  simp [removeAllGo, h]

lemma removeAllGo_cons_neg (p : List Char) (c : Char) (rest : List Char)
    (h : p.isPrefixOf (c :: rest) = false) :
    removeAllGo p 0 (c :: rest) = c :: removeAllGo p 0 rest := by
  simp [removeAllGo, h]

/-- Skipping exactly the length of `t` consumes `t`. -/
lemma removeAllGo_skip_eq (p : List Char) (k : Nat) (t x : List Char)
    (hk : t.length = k) :
    removeAllGo p k (t ++ x) = removeAllGo p 0 x := by
  subst hk
  induction t with
  | nil => rfl
  | cons a t' ih => simpa [removeAllGo] using ih

lemma isPrefixOf_append_extend {p A : List Char} (B : List Char)
    (h : p.isPrefixOf A = true) : p.isPrefixOf (A ++ B) = true := by
  rw [List.isPrefixOf_iff_prefix] at h ⊢
  exact h.trans (List.prefix_append A B)

/-- A pattern avoiding the character `c` cannot match across the boundary
before `c`: any match inside `A ++ c :: x` that starts in `A` ends in `A`. -/
lemma prefix_length_le_of_not_mem (p A : List Char) (c : Char) (x : List Char)
    (h : p.isPrefixOf (A ++ c :: x) = true) (hc : c ∉ p) : p.length ≤ A.length := by
  by_contra hl
  push_neg at hl
  rw [List.isPrefixOf_iff_prefix] at h
  obtain ⟨z, hz⟩ := h
  apply hc
  have hidx : (p ++ z)[A.length]? = some c := by
    rw [hz, List.getElem?_append_right (Nat.le_refl A.length)]
    simp
  rw [List.getElem?_append, if_pos hl] at hidx
  rw [List.getElem?_eq_some] at hidx
  obtain ⟨hb, hval⟩ := hidx
  exact List.mem_iff_getElem.mpr ⟨A.length, hb, hval⟩

lemma prefix_of_append_left (p A B : List Char) (h : p.isPrefixOf (A ++ B) = true)
    (hl : p.length ≤ A.length) : p.isPrefixOf A = true := by
  rw [List.isPrefixOf_iff_prefix] at h ⊢
  exact List.prefix_of_prefix_length_le h (List.prefix_append A B) hl

/-- The scan of `removeAll` distributes over an append whose right part
starts with a character that does not occur in the pattern: no occurrence
can straddle the boundary. -/
lemma removeAll_append_split (p : List Char) (c : Char) (x : List Char) (hc : c ∉ p) :
    ∀ t : List Char, removeAll p (t ++ c :: x) = removeAll p t ++ removeAll p (c :: x) := by
  have H : ∀ (n : Nat) (t : List Char), t.length ≤ n →
      removeAllGo p 0 (t ++ c :: x) = removeAllGo p 0 t ++ removeAllGo p 0 (c :: x) := by
    intro n
    induction n with
    | zero =>
      intro t ht
      have ht0 : t = [] := List.eq_nil_of_length_eq_zero (Nat.le_zero.mp ht)
      subst ht0
      simp [removeAllGo]
    | succ n ih =>
      intro t ht
      cases t with
      | nil => simp [removeAllGo]
      | cons a t' =>
        have ht' : t'.length ≤ n := Nat.le_of_succ_le_succ (by simpa using ht)
        rw [List.cons_append]
        cases hpre : p.isPrefixOf (a :: (t' ++ c :: x)) with
        | false =>
          have hpre2 : p.isPrefixOf (a :: t') = false := by
            cases h2 : p.isPrefixOf (a :: t') with
            | false => rfl
            | true =>
              have h3 := isPrefixOf_append_extend (c :: x) h2
              rw [List.cons_append, hpre] at h3
              exact absurd h3 (by simp)
          rw [removeAllGo_cons_neg p a (t' ++ c :: x) hpre,
              removeAllGo_cons_neg p a t' hpre2, ih t' ht']
          simp
        | true =>
          have hlen : p.length ≤ t'.length + 1 := by
            have := prefix_length_le_of_not_mem p (a :: t') c x
              (by simpa [List.cons_append] using hpre) hc
            simpa using this
          have hpre2 : p.isPrefixOf (a :: t') = true :=
            prefix_of_append_left p (a :: t') (c :: x)
              (by simpa [List.cons_append] using hpre) (by simpa using hlen)
          have hk : p.length - 1 ≤ t'.length := by omega
          have hL : removeAllGo p 0 (a :: (t' ++ c :: x))
              = removeAllGo p 0 (t'.drop (p.length - 1) ++ c :: x) := by
            rw [removeAllGo_cons_pos p a (t' ++ c :: x) hpre]
            conv_lhs => rw [show t' ++ c :: x
              = t'.take (p.length - 1) ++ (t'.drop (p.length - 1) ++ c :: x) from by
                rw [← List.append_assoc, List.take_append_drop]]
            exact removeAllGo_skip_eq p (p.length - 1) (t'.take (p.length - 1)) _
              (by rw [List.length_take]; omega)
          have hR : removeAllGo p 0 (a :: t')
              = removeAllGo p 0 (t'.drop (p.length - 1)) := by
            rw [removeAllGo_cons_pos p a t' hpre2]
            conv_lhs => rw [show t' = t'.take (p.length - 1) ++ t'.drop (p.length - 1) from
              (List.take_append_drop _ _).symm]
            exact removeAllGo_skip_eq p (p.length - 1) (t'.take (p.length - 1)) _
              (by rw [List.length_take]; omega)
          rw [hL, hR, ih (t'.drop (p.length - 1)) (by
            have hd : (t'.drop (p.length - 1)).length ≤ t'.length := by
              simp [List.length_drop]
            exact hd.trans ht')]
  intro t
  exact H t.length t (Nat.le_refl _)

/-- The scanner deletes a literal copy of the (non-empty) pattern at the
head of its input. -/
lemma removeAll_left_pattern (p s : List Char) (hp : p ≠ []) :
    removeAll p (p ++ s) = removeAll p s := by
  cases p with
  | nil => exact absurd rfl hp
  | cons a p' =>
    have hpre : (a :: p').isPrefixOf (a :: (p' ++ s)) = true := by
      rw [List.isPrefixOf_iff_prefix]
      exact List.prefix_append (a :: p') s
    show removeAllGo (a :: p') 0 ((a :: p') ++ s) = removeAllGo (a :: p') 0 s
    rw [List.cons_append, removeAllGo_cons_pos _ _ _ hpre]
    exact removeAllGo_skip_eq _ _ p' s (by simp)

lemma removeAll_cons_neg (p : List Char) (c : Char) (rest : List Char)
    (h : p.isPrefixOf (c :: rest) = false) :
    removeAll p (c :: rest) = c :: removeAll p rest :=
  removeAllGo_cons_neg p c rest h

lemma backtick_beq_nl : (backtick == '\n') = false := by decide

lemma fenceJson_not_prefix_nl (z : List Char) :
    fenceJson.isPrefixOf ('\n' :: z) = false := by
  simp [fenceJson, List.isPrefixOf, backtick_beq_nl]

lemma fence_not_prefix_nl (z : List Char) :
    fence.isPrefixOf ('\n' :: z) = false := by
  simp [fence, List.isPrefixOf, backtick_beq_nl]

lemma removeAll_fenceJson_tail : removeAll fenceJson ('\n' :: fence) = '\n' :: fence := by
  decide

lemma removeAll_fence_tail : removeAll fence ('\n' :: fence) = ['\n'] := by
  decide

lemma trim_cons_ws (c : Char) (h : isWs c = true) (s : List Char) :
    trimChars (c :: s) = trimChars s := by
  simp [trimChars, List.dropWhile_cons, h]

lemma trim_append_ws (c : Char) (h : isWs c = true) :
    ∀ s : List Char, trimChars (s ++ [c]) = trimChars s := by
  intro s
  induction s with
  | nil => simp [trimChars, List.dropWhile_cons, h]
  | cons a s' ih =>
    cases ha : isWs a with
    | true =>
      rw [List.cons_append, trim_cons_ws a ha _, ih, trim_cons_ws a ha s']
    | false =>
      show trimChars (a :: (s' ++ [c])) = trimChars (a :: s')
      have hd : ∀ z : List Char, (a :: z).dropWhile isWs = a :: z := by
        intro z
        simp [List.dropWhile_cons, ha]
      unfold trimChars
      rw [hd, hd]
      rw [show (a :: (s' ++ [c])).reverse = c :: (a :: s').reverse from by simp]
      simp [List.dropWhile_cons, h]

/-- The cleaning pipeline is insensitive to a surrounding code fence, at the
level of character lists. -/
lemma cleanChars_wrap (u : List Char) :
    trimChars (removeAll fence (removeAll fenceJson
        ((fenceJson ++ ['\n']) ++ (u ++ '\n' :: fence))))
      = trimChars (removeAll fence (removeAll fenceJson u)) := by
  have h1 : removeAll fenceJson ((fenceJson ++ ['\n']) ++ (u ++ '\n' :: fence))
      = '\n' :: (removeAll fenceJson u ++ ('\n' :: fence)) := by
    rw [List.append_assoc, removeAll_left_pattern fenceJson _ (by decide)]
    rw [show (['\n'] ++ (u ++ '\n' :: fence) : List Char)
      = '\n' :: (u ++ '\n' :: fence) from rfl]
    rw [removeAll_cons_neg _ _ _ (fenceJson_not_prefix_nl _)]
    rw [removeAll_append_split fenceJson '\n' fence (by decide) u]
    rw [removeAll_fenceJson_tail]
  rw [h1]
  have h2 : removeAll fence ('\n' :: (removeAll fenceJson u ++ ('\n' :: fence)))
      = '\n' :: (removeAll fence (removeAll fenceJson u) ++ ['\n']) := by
    rw [removeAll_cons_neg _ _ _ (fence_not_prefix_nl _)]
    rw [removeAll_append_split fence '\n' fence (by decide) (removeAll fenceJson u)]
    rw [removeAll_fence_tail]
  rw [h2]
  rw [trim_cons_ws '\n' (by decide) _]
  rw [trim_append_ws '\n' (by decide) (removeAll fence (removeAll fenceJson u))]

example : cleanText "```json\nhello world\n```" = "hello world" := by decide

lemma string_data_append (a b : String) : (a ++ b).data = a.data ++ b.data := rfl

/-- Claim C1: cleaning a response text wrapped in code-fence markers yields
the same string as cleaning the bare text, so any parse of the cleaned text
(in the source, `JSON.parse`) gives the same result. -/
theorem fence_stripping_insensitive (t : String) :
    cleanText ("```json\n" ++ t ++ "\n```") = cleanText t ∧
    ∀ parse : String → Except String AIResponse,
      parse (cleanText ("```json\n" ++ t ++ "\n```")) = parse (cleanText t) := by
  have hdata : ("```json\n" ++ t ++ "\n```").data
      = (fenceJson ++ ['\n']) ++ (t.data ++ '\n' :: fence) := by
    rw [string_data_append, string_data_append]
    rw [show ("```json\n" : String).data = fenceJson ++ ['\n'] from by decide]
    rw [show ("\n```" : String).data = '\n' :: fence from by decide]
    rw [List.append_assoc]
  have hmain : cleanText ("```json\n" ++ t ++ "\n```") = cleanText t := by
    show String.mk _ = String.mk _
    apply congrArg String.mk
    rw [hdata]
    exact cleanChars_wrap t.data
  exact ⟨hmain, fun parse => by rw [hmain]⟩

end GeoNarrator
